import Mathlib

/-!
Shallow embedding of the tx3 Go SDK's TRP client (`sdk/trp/trp.go`).

JSON documents are modelled as an inductive `Json` value (the abstract
syntax a parser produces); Go's `encoding/json` marshal/unmarshal of the
package's structs is embedded as explicit functions between those structs
and `Json`.  Fallible decoding returns `Except String`, mirroring Go's
`error` results.  Numbers use `Int` (the claims only involve integral
values); Go `time.Duration` is an `Int` count of nanoseconds.
-/

namespace Tx3

/-- Abstract JSON values. -/
inductive Json where
  | null : Json
  | bool (b : Bool) : Json
  | num (n : Int) : Json
  | str (s : String) : Json
  | arr (elems : List Json) : Json
  | obj (fields : List (String × Json)) : Json

/-- Field lookup on a JSON object (first occurrence). -/
def jsonObjLookup (j : Json) (key : String) : Option Json :=
  match j with
  | .obj fields => (fields.find? (fun p => p.1 == key)).map (fun p => p.2)
  | _ => none

/-- The keys of a JSON object value. -/
def objKeys : Json → List String
  | .obj fields => fields.map (fun p => p.1)
  | _ => []

/-- `TirInfo` from trp.go: a compiled transaction template descriptor. -/
structure TirInfo where
  Version : String
  Content : String
  Encoding : String

/-- `TxEnvelope` from trp.go: a resolved transaction envelope. -/
structure TxEnvelope where
  Tx : String
  Hash : String

/-- `BytesEnvelope` from trp.go: encoded bytes plus an encoding tag. -/
structure BytesEnvelope where
  Content : String
  Encoding : String

/-- `VKeyWitness` from trp.go (field `Type` is `Type_` here since `Type`
is reserved in Lean). -/
structure VKeyWitness where
  Type_ : String
  Key : BytesEnvelope
  Signature : BytesEnvelope

/-- `SubmitWitness` from trp.go, structurally identical to `VKeyWitness`. -/
abbrev SubmitWitness := VKeyWitness

/-- `WitnessInput` from trp.go: either a `SubmitWitness` object or a hex
string. -/
structure WitnessInput where
  Object : Option SubmitWitness
  Hex : String

/-- Marshal of `TirInfo` (json tags version/content/encoding, in struct
field order as Go emits them). -/
def marshalTirInfo (t : TirInfo) : Json :=
  .obj [("version", .str t.Version), ("content", .str t.Content),
        ("encoding", .str t.Encoding)]

/-- Marshal of `BytesEnvelope` (json tags content/encoding). -/
def marshalBytesEnvelope (b : BytesEnvelope) : Json :=
  .obj [("content", .str b.Content), ("encoding", .str b.Encoding)]

/-- Marshal of `SubmitWitness` (json tags type/key/signature). -/
def marshalSubmitWitness (w : SubmitWitness) : Json :=
  .obj [("type", .str w.Type_), ("key", marshalBytesEnvelope w.Key),
        ("signature", marshalBytesEnvelope w.Signature)]

/-- `WitnessInput.MarshalJSON`: the object variant when set, otherwise the
hex string as a bare JSON string. -/
def marshalWitnessInput (w : WitnessInput) : Json :=
  match w.Object with
  | some o => marshalSubmitWitness o
  | none => .str w.Hex

/-- Go `json.Unmarshal` into a `string` variable holding its zero value:
a JSON string succeeds with its content; JSON `null` succeeds leaving the
zero value `""` in place; every other JSON value is a type error. -/
def unmarshalString : Json → Option String
  | .str s => some s
  | .null => some ""
  | _ => none

/-- The zero value of `BytesEnvelope`. -/
def beZero : BytesEnvelope := { Content := "", Encoding := "" }

/-- The zero value of `SubmitWitness`. -/
def witnessZero : SubmitWitness := { Type_ := "", Key := beZero, Signature := beZero }

/-- Decoding one JSON object member into a `BytesEnvelope` being built, as
Go's `encoding/json` does: known fields `content`/`encoding` must be a
string (or `null`, which leaves the field untouched); unknown members are
ignored. -/
def setBEField (acc : BytesEnvelope) (f : String × Json) : Except String BytesEnvelope :=
  if f.1 = "content" then
    match f.2 with
    | .str s => .ok { acc with Content := s }
    | .null => .ok acc
    | _ => .error "cannot unmarshal value into Go string field"
  else if f.1 = "encoding" then
    match f.2 with
    | .str s => .ok { acc with Encoding := s }
    | .null => .ok acc
    | _ => .error "cannot unmarshal value into Go string field"
  else .ok acc

/-- Fold of `setBEField` over the members of a JSON object. -/
def beFold (acc : BytesEnvelope) : List (String × Json) → Except String BytesEnvelope
  | [] => .ok acc
  | f :: fs =>
    match setBEField acc f with
    | .ok a => beFold a fs
    | .error e => .error e

/-- Go `json.Unmarshal` into a `BytesEnvelope`: an object decodes member
by member, `null` is a no-op on the zero value, anything else is a type
error. -/
def unmarshalBytesEnvelope : Json → Except String BytesEnvelope
  | .null => .ok beZero
  | .obj fs => beFold beZero fs
  | _ => .error "cannot unmarshal value into BytesEnvelope"

/-- Decoding one JSON object member into a `SubmitWitness` being built:
`type` must be a string, `key`/`signature` must be `BytesEnvelope`-shaped
objects (or `null`); unknown members are ignored. -/
def setWitnessField (acc : SubmitWitness) (f : String × Json) : Except String SubmitWitness :=
  if f.1 = "type" then
    match f.2 with
    | .str s => .ok { acc with Type_ := s }
    | .null => .ok acc
    | _ => .error "cannot unmarshal value into Go string field"
  else if f.1 = "key" then
    match f.2 with
    | .null => .ok acc
    | .obj fs =>
      match beFold acc.Key fs with
      | .ok b => .ok { acc with Key := b }
      | .error e => .error e
    | _ => .error "cannot unmarshal value into BytesEnvelope"
  else if f.1 = "signature" then
    match f.2 with
    | .null => .ok acc
    | .obj fs =>
      match beFold acc.Signature fs with
      | .ok b => .ok { acc with Signature := b }
      | .error e => .error e
    | _ => .error "cannot unmarshal value into BytesEnvelope"
  else .ok acc

/-- Fold of `setWitnessField` over the members of a JSON object. -/
def witnessFold (acc : SubmitWitness) : List (String × Json) → Except String SubmitWitness
  | [] => .ok acc
  | f :: fs =>
    match setWitnessField acc f with
    | .ok a => witnessFold a fs
    | .error e => .error e

/-- Go `json.Unmarshal` into a `SubmitWitness` starting from its zero
value. -/
def unmarshalSubmitWitness : Json → Except String SubmitWitness
  | .null => .ok witnessZero
  | .obj fs => witnessFold witnessZero fs
  | _ => .error "cannot unmarshal value into SubmitWitness"

/-- `WitnessInput.UnmarshalJSON` from trp.go: try the string shape first;
on failure try the `SubmitWitness` object shape; otherwise fail with the
fixed message. -/
def unmarshalWitnessInput (data : Json) : Except String WitnessInput :=
  match unmarshalString data with
  | some h => .ok { Object := none, Hex := h }
  | none =>
    match unmarshalSubmitWitness data with
    | .ok obj => .ok { Object := some obj, Hex := "" }
    | .error _ => .error "data is neither string nor SubmitWitness"

/-- `ClientOptions` from trp.go.  The Go header and env maps are carried
as association lists (one enumeration order of the map); `Timeout` is a
`time.Duration`, i.e. nanoseconds. -/
structure ClientOptions where
  Endpoint : String
  Headers : List (String × String)
  EnvArgs : List (String × Json)
  Timeout : Int

/-- `ProtoTxRequest` from trp.go. -/
structure ProtoTxRequest where
  Tir : TirInfo
  Args : Json

/-- `jsonRPCParams` from trp.go: `Env` is an `interface{}` that is `nil`
(`none`) unless assigned; its json tag is `env,omitempty`. -/
structure jsonRPCParams where
  Tir : TirInfo
  Args : Json
  Env : Option (List (String × Json))

/-- Marshal of `jsonRPCParams`: `tir` and `args` always, `env` omitted
exactly when the interface value is `nil` (Go `omitempty`). -/
def marshalJsonRPCParams (p : jsonRPCParams) : Json :=
  .obj ([("tir", marshalTirInfo p.Tir), ("args", p.Args)] ++
    match p.Env with
    | none => []
    | some m => [("env", Json.obj m)])

/-- `SubmitParams` from trp.go. -/
structure SubmitParams where
  Tx : BytesEnvelope
  Witnesses : List WitnessInput

/-- Marshal of `SubmitParams` (json tags tx/witnesses; the slice marshals
element-wise in order). -/
def marshalSubmitParams (p : SubmitParams) : Json :=
  .obj [("tx", marshalBytesEnvelope p.Tx),
        ("witnesses", .arr (p.Witnesses.map marshalWitnessInput))]

/-- `Client` from trp.go: the options plus the `http.Client` timeout. -/
structure Client where
  options : ClientOptions
  httpTimeout : Int

/-- One second of `time.Duration`, in nanoseconds. -/
def timeSecond : Int := 1000000000

/-- `NewClient` from trp.go: default the timeout to 30 seconds when the
configured one is zero. -/
def NewClient (options : ClientOptions) : Client :=
  let timeout := if options.Timeout = 0 then 30 * timeSecond else options.Timeout
  { options := options, httpTimeout := timeout }

/-- The params value `Resolve` builds before calling `trp.resolve`: env
args are attached only when the configured map is non-empty. -/
def resolveParams (opts : ClientOptions) (protoTx : ProtoTxRequest) : jsonRPCParams :=
  { Tir := protoTx.Tir, Args := protoTx.Args,
    Env := if opts.EnvArgs.length > 0 then some opts.EnvArgs else none }

/-- The serialized outbound params of a `Resolve` call. -/
def resolveOutboundParams (opts : ClientOptions) (protoTx : ProtoTxRequest) : Json :=
  marshalJsonRPCParams (resolveParams opts protoTx)

/-- The params value `Submit` builds before calling `trp.submit`. -/
def submitParams (tx : TxEnvelope) (witnesses : List WitnessInput) : SubmitParams :=
  { Tx := { Content := tx.Tx, Encoding := "hex" }, Witnesses := witnesses }

/-- The serialized outbound params of a `Submit` call. -/
def submitOutboundParams (tx : TxEnvelope) (witnesses : List WitnessInput) : Json :=
  marshalSubmitParams (submitParams tx witnesses)

/-! ### HTTP headers

Go's `http.Header.Set` canonicalizes the key with
`textproto.CanonicalMIMEHeaderKey` and replaces any previous value.  The
header map is embedded as an association list with map semantics. -/

/-- A valid MIME header token byte (RFC 7230), as Go's
`validHeaderFieldByte`. -/
def isTokenChar (c : Char) : Bool :=
  c.isAlpha || c.isDigit ||
    [33, 35, 36, 37, 38, 39, 42, 43, 45, 46, 94, 95, 96, 124, 126].contains c.toNat

/-- Case-canonicalize header characters: uppercase at the start and after
each dash, lowercase elsewhere. -/
def canonChars : Bool → List Char → List Char
  | _, [] => []
  | up, c :: cs =>
    let c2 := if up then c.toUpper else c.toLower
    c2 :: canonChars (c2 = '-') cs

/-- Go `textproto.CanonicalMIMEHeaderKey`: keys containing an invalid
token byte are returned unchanged, others are case-canonicalized. -/
def canonicalMIMEHeaderKey (s : String) : String :=
  if s.data.all isTokenChar then String.mk (canonChars true s.data) else s

/-- `http.Header.Set`: store `value` under the canonical key, replacing
any previous entry for that key. -/
def headerSet (h : List (String × String)) (key value : String) : List (String × String) :=
  (canonicalMIMEHeaderKey key, value) :: h.filter (fun p => p.1 != canonicalMIMEHeaderKey key)

/-- `http.Header.Get`: look up the value stored under the canonical key. -/
def headerGet (h : List (String × String)) (key : String) : Option String :=
  (h.find? (fun p => p.1 == canonicalMIMEHeaderKey key)).map (fun p => p.2)

/-- The header map of the outbound request built by `call`: Content-Type
is set first, then every configured header is `Set` in turn. -/
def buildRequestHeaders (headers : List (String × String)) : List (String × String) :=
  headers.foldl (fun h p => headerSet h p.1 p.2)
    (headerSet [] "Content-Type" "application/json")

/-- The outbound HTTP request built by `call` (method POST, configured
endpoint, JSON-RPC envelope body, headers as above). -/
structure HttpRequest where
  Method : String
  URL : String
  Body : Json
  Headers : List (String × String)

/-- The request `call` builds for a given method, params and freshly
generated request id. -/
def buildCallRequest (c : Client) (method : String) (params : Json)
    (requestID : String) : HttpRequest :=
  { Method := "POST", URL := c.options.Endpoint,
    Body := .obj [("jsonrpc", .str "2.0"), ("method", .str method),
                  ("params", params), ("id", .str requestID)],
    Headers := buildRequestHeaders c.options.Headers }

/-! ### JSON-RPC response handling -/

/-- `jsonRPCError` from trp.go (`Data` is an `interface{}`, `nil` when the
member is absent or JSON `null`). -/
structure jsonRPCError where
  Code : Int
  Message : String
  Data : Option Json

/-- The zero value of `jsonRPCError`. -/
def rpcErrZero : jsonRPCError := { Code := 0, Message := "", Data := none }

/-- Decoding one JSON object member into a `jsonRPCError` being built:
`code` must be a number, `message` a string, `data` takes any value
(`null` makes the interface `nil`); unknown members are ignored. -/
def setRPCErrField (acc : jsonRPCError) (f : String × Json) : Except String jsonRPCError :=
  if f.1 = "code" then
    match f.2 with
    | .num n => .ok { acc with Code := n }
    | .null => .ok acc
    | _ => .error "cannot unmarshal value into Go int field"
  else if f.1 = "message" then
    match f.2 with
    | .str s => .ok { acc with Message := s }
    | .null => .ok acc
    | _ => .error "cannot unmarshal value into Go string field"
  else if f.1 = "data" then
    match f.2 with
    | .null => .ok { acc with Data := none }
    | v => .ok { acc with Data := some v }
  else .ok acc

/-- Fold of `setRPCErrField` over the members of a JSON object. -/
def rpcErrFold (acc : jsonRPCError) : List (String × Json) → Except String jsonRPCError
  | [] => .ok acc
  | f :: fs =>
    match setRPCErrField acc f with
    | .ok a => rpcErrFold a fs
    | .error e => .error e

/-- `jsonRPCResponse` from trp.go: `Result` is a `json.RawMessage` (`nil`
when the member is absent, otherwise the raw member value, `null`
included); `Error` is a `*jsonRPCError` pointer. -/
structure jsonRPCResponse where
  JSONRPC : String
  Result : Option Json
  Error : Option jsonRPCError
  ID : String

/-- The zero value of `jsonRPCResponse`. -/
def rpcRespZero : jsonRPCResponse :=
  { JSONRPC := "", Result := none, Error := none, ID := "" }

/-- Decoding one JSON object member into a `jsonRPCResponse` being built:
`jsonrpc`/`id` must be strings, `result` is captured raw, `error` must be
`null` (nil pointer) or an object decoded as `jsonRPCError`; unknown
members are ignored. -/
def setRPCRespField (acc : jsonRPCResponse) (f : String × Json) : Except String jsonRPCResponse :=
  if f.1 = "jsonrpc" then
    match f.2 with
    | .str s => .ok { acc with JSONRPC := s }
    | .null => .ok acc
    | _ => .error "cannot unmarshal value into Go string field"
  else if f.1 = "result" then
    .ok { acc with Result := some f.2 }
  else if f.1 = "error" then
    match f.2 with
    | .null => .ok { acc with Error := none }
    | .obj fs =>
      match rpcErrFold (acc.Error.getD rpcErrZero) fs with
      | .ok e => .ok { acc with Error := some e }
      | .error e => .error e
    | _ => .error "cannot unmarshal value into jsonRPCError"
  else if f.1 = "id" then
    match f.2 with
    | .str s => .ok { acc with ID := s }
    | .null => .ok acc
    | _ => .error "cannot unmarshal value into Go string field"
  else .ok acc

/-- Fold of `setRPCRespField` over the members of a JSON object. -/
def rpcRespFold (acc : jsonRPCResponse) : List (String × Json) → Except String jsonRPCResponse
  | [] => .ok acc
  | f :: fs =>
    match setRPCRespField acc f with
    | .ok a => rpcRespFold a fs
    | .error e => .error e

/-- Go `json.Unmarshal` into a `jsonRPCResponse` starting from its zero
value. -/
def unmarshalJsonRPCResponse : Json → Except String jsonRPCResponse
  | .null => .ok rpcRespZero
  | .obj fs => rpcRespFold rpcRespZero fs
  | _ => .error "cannot unmarshal value into jsonRPCResponse"

/-- The caller-facing failures of `call` in trp.go:
`httpError status body` embeds `fmt.Errorf("HTTP error %d: %s", ...)`,
`decodeError` embeds `fmt.Errorf("failed to unmarshal response: %w", ...)`,
and `trpError message data` embeds `&Error{Message, Data}` — note the Go
`Error` struct has no code field. -/
inductive CallError where
  | httpError (status : Int) (body : String) : CallError
  | decodeError (msg : String) : CallError
  | trpError (Message : String) (Data : Option Json) : CallError

/-- An HTTP response as `call` observes it: the status code, the raw body
bytes, and the body's JSON parse abstracted as `BodyJson` (`none` when
the body is not valid JSON). -/
structure HttpResponse where
  StatusCode : Int
  Body : String
  BodyJson : Option Json

/-- The response-processing tail of `call` in trp.go: any status other
than `http.StatusOK` (200) fails with the HTTP error carrying the status
and raw body; otherwise the body is parsed as a JSON-RPC response, a
present `error` member fails with `&Error{Message, Data}`, and otherwise
the raw `result` is returned. -/
def processResponse (resp : HttpResponse) : Except CallError (Option Json) :=
  if resp.StatusCode ≠ 200 then
    .error (.httpError resp.StatusCode resp.Body)
  else
    match resp.BodyJson with
    | none => .error (.decodeError "failed to unmarshal response")
    | some j =>
      match unmarshalJsonRPCResponse j with
      | .error e => .error (.decodeError e)
      | .ok rpc =>
        match rpc.Error with
        | some e => .error (.trpError e.Message e.Data)
        | none => .ok rpc.Result

/-! ### Theorems -/

/-- A JSON value Go can decode into a `string` variable (string or null). -/
def isStrOrNull : Json → Bool
  | .str _ => true
  | .null => true
  | _ => false

/-- A JSON object member acceptable while decoding a `BytesEnvelope`. -/
def beFieldOk (f : String × Json) : Bool :=
  if f.1 = "content" ∨ f.1 = "encoding" then isStrOrNull f.2 else true

/-- A JSON value Go can decode into a `BytesEnvelope` field. -/
def beOk : Json → Bool
  | .null => true
  | .obj fs => fs.all beFieldOk
  | _ => false

/-- A JSON object member acceptable while decoding a `SubmitWitness`. -/
def witnessFieldOk (f : String × Json) : Bool :=
  if f.1 = "type" then isStrOrNull f.2
  else if f.1 = "key" ∨ f.1 = "signature" then beOk f.2
  else true

lemma setBEField_ok (acc : BytesEnvelope) (f : String × Json)
    (hf : beFieldOk f = true) : ∃ a, setBEField acc f = .ok a := by
  obtain ⟨k, v⟩ := f
  by_cases h1 : k = "content"
  · subst h1
    cases v with
    | str s => exact ⟨_, rfl⟩
    | null => exact ⟨_, rfl⟩
    | bool b => simp [beFieldOk, isStrOrNull] at hf
    | num n => simp [beFieldOk, isStrOrNull] at hf
    | arr xs => simp [beFieldOk, isStrOrNull] at hf
    | obj fs => simp [beFieldOk, isStrOrNull] at hf
  · by_cases h2 : k = "encoding"
    · subst h2
      cases v with
      | str s => exact ⟨_, rfl⟩
      | null => exact ⟨_, rfl⟩
      | bool b => simp [beFieldOk, isStrOrNull] at hf
      | num n => simp [beFieldOk, isStrOrNull] at hf
      | arr xs => simp [beFieldOk, isStrOrNull] at hf
      | obj fs => simp [beFieldOk, isStrOrNull] at hf
    · exact ⟨acc, by simp [setBEField, h1, h2]⟩

lemma beFold_ok (fs : List (String × Json)) : ∀ acc : BytesEnvelope,
    fs.all beFieldOk = true → ∃ b, beFold acc fs = .ok b := by
  induction fs with
  | nil => exact fun acc _ => ⟨acc, rfl⟩
  | cons f t ih =>
    intro acc hall
    rw [List.all_cons, Bool.and_eq_true] at hall
    obtain ⟨a, ha⟩ := setBEField_ok acc f hall.1
    obtain ⟨b, hb⟩ := ih a hall.2
    exact ⟨b, by simp [beFold, ha, hb]⟩

lemma setWitnessField_ok (acc : SubmitWitness) (f : String × Json)
    (hf : witnessFieldOk f = true) : ∃ a, setWitnessField acc f = .ok a := by
  obtain ⟨k, v⟩ := f
  by_cases h1 : k = "type"
  · subst h1
    cases v with
    | str s => exact ⟨_, rfl⟩
    | null => exact ⟨_, rfl⟩
    | bool b => simp [witnessFieldOk, isStrOrNull] at hf
    | num n => simp [witnessFieldOk, isStrOrNull] at hf
    | arr xs => simp [witnessFieldOk, isStrOrNull] at hf
    | obj fs => simp [witnessFieldOk, isStrOrNull] at hf
  · by_cases h2 : k = "key"
    · subst h2
      cases v with
      | null => exact ⟨acc, rfl⟩
      | obj fs =>
        have hok : fs.all beFieldOk = true := by
          simpa [witnessFieldOk, beOk] using hf
        obtain ⟨b, hb⟩ := beFold_ok fs acc.Key hok
        exact ⟨{ acc with Key := b }, by simp [setWitnessField, hb]⟩
      | str s => simp [witnessFieldOk, beOk] at hf
      | bool b => simp [witnessFieldOk, beOk] at hf
      | num n => simp [witnessFieldOk, beOk] at hf
      | arr xs => simp [witnessFieldOk, beOk] at hf
    · by_cases h3 : k = "signature"
      · subst h3
        cases v with
        | null => exact ⟨acc, rfl⟩
        | obj fs =>
          have hok : fs.all beFieldOk = true := by
            simpa [witnessFieldOk, beOk] using hf
          obtain ⟨b, hb⟩ := beFold_ok fs acc.Signature hok
          exact ⟨{ acc with Signature := b }, by simp [setWitnessField, hb]⟩
        | str s => simp [witnessFieldOk, beOk] at hf
        | bool b => simp [witnessFieldOk, beOk] at hf
        | num n => simp [witnessFieldOk, beOk] at hf
        | arr xs => simp [witnessFieldOk, beOk] at hf
      · exact ⟨acc, by simp [setWitnessField, h1, h2, h3]⟩

lemma witnessFold_ok (fs : List (String × Json)) : ∀ acc : SubmitWitness,
    fs.all witnessFieldOk = true → ∃ o, witnessFold acc fs = .ok o := by
  induction fs with
  | nil => exact fun acc _ => ⟨acc, rfl⟩
  | cons f t ih =>
    intro acc hall
    rw [List.all_cons, Bool.and_eq_true] at hall
    obtain ⟨a, ha⟩ := setWitnessField_ok acc f hall.1
    obtain ⟨o, ho⟩ := ih a hall.2
    exact ⟨o, by simp [witnessFold, ha, ho]⟩

/-- C4: for every `WitnessInput` in which at most one variant carries
content (the object variant is `nil`, or the hex string is empty as it is
whenever the object variant was populated by decoding), `MarshalJSON`
followed by `UnmarshalJSON` returns exactly the same value: same variant
populated, equal content. -/
theorem witnessInput_roundtrip (w : WitnessInput)
    (h : w.Object = none ∨ w.Hex = "") :
    unmarshalWitnessInput (marshalWitnessInput w) = .ok w := by
  obtain ⟨o, hx⟩ := w
  cases o with
  | none => rfl
  | some o =>
    rcases h with h | h
    · simp at h
    · simp only at h
      subst h
      rfl

/-- C4 witness: the hex-variant value `ff00` round-trips. -/
theorem witnessInput_roundtrip_witness :
    unmarshalWitnessInput (marshalWitnessInput { Object := none, Hex := "ff00" }) =
      .ok { Object := none, Hex := "ff00" } :=
  witnessInput_roundtrip { Object := none, Hex := "ff00" } (Or.inl rfl)

/-- C5: decoding any JSON string value as `WitnessInput` succeeds with the
hex variant and the object variant cleared — the string shape is attempted
first, so this holds even when the string's unquoted text would parse as a
witness object. -/
theorem witnessInput_string_decode (s : String) :
    unmarshalWitnessInput (.str s) = .ok { Object := none, Hex := s } := rfl

/-- C10 (amended): `WitnessInput` decoding succeeds with the object
variant for every JSON object whose `type`/`key`/`signature` members,
where present, have the shapes the witness struct expects — in particular
for the empty object and for objects with none of those members, since
field presence is not validated — while JSON numbers, booleans and arrays
fail with the fixed decoding error. -/
theorem witnessInput_decode_shapes :
    (∀ fs : List (String × Json), fs.all witnessFieldOk = true →
      ∃ o, unmarshalWitnessInput (.obj fs) = .ok { Object := some o, Hex := "" }) ∧
    unmarshalWitnessInput (.obj []) = .ok { Object := some witnessZero, Hex := "" } ∧
    (∀ n : Int, unmarshalWitnessInput (.num n) =
      .error "data is neither string nor SubmitWitness") ∧
    (∀ b : Bool, unmarshalWitnessInput (.bool b) =
      .error "data is neither string nor SubmitWitness") ∧
    (∀ xs : List Json, unmarshalWitnessInput (.arr xs) =
      .error "data is neither string nor SubmitWitness") := by
  refine ⟨?_, rfl, fun n => rfl, fun b => rfl, fun xs => rfl⟩
  intro fs hall
  obtain ⟨o, ho⟩ := witnessFold_ok fs witnessZero hall
  exact ⟨o, by simp [unmarshalWitnessInput, unmarshalString, unmarshalSubmitWitness, ho]⟩

/-- C10 witness: an object with a well-typed `type` member and an unknown
member decodes to the object variant. -/
theorem witnessInput_decode_shapes_witness :
    ∃ o, unmarshalWitnessInput
      (.obj [("type", Json.str "vkey"), ("other", Json.num 1)]) =
      .ok { Object := some o, Hex := "" } :=
  witnessInput_decode_shapes.1 [("type", Json.str "vkey"), ("other", Json.num 1)] (by decide)

/-- C10 counterexample: the JSON object with member `type` bound to the
number 5 is rejected by `WitnessInput.UnmarshalJSON`, so decoding does not
succeed for every JSON object value. -/
theorem witnessInput_object_reject_counterexample :
    unmarshalWitnessInput (.obj [("type", Json.num 5)]) =
      .error "data is neither string nor SubmitWitness" := rfl

lemma find?_filter_ne (l : List (String × String)) (a b : String) (hab : a ≠ b) :
    (l.filter (fun p => p.1 != b)).find? (fun p => p.1 == a) =
      l.find? (fun p => p.1 == a) := by
  induction l with
  | nil => rfl
  | cons p t ih =>
    by_cases h1 : p.1 = a
    · subst h1
      have hb : (p.1 != b) = true := by simp [hab]
      simp [List.filter_cons, hb, List.find?_cons]
    · by_cases h2 : p.1 = b
      · subst h2
        simp [List.filter_cons, List.find?_cons, h1, ih]
      · have hb : (p.1 != b) = true := by simp [h2]
        simp [List.filter_cons, hb, List.find?_cons, h1, ih]

lemma headerGet_headerSet (h : List (String × String)) (k v k2 : String) :
    headerGet (headerSet h k v) k2 =
      if canonicalMIMEHeaderKey k2 = canonicalMIMEHeaderKey k then some v
      else headerGet h k2 := by
  unfold headerGet headerSet
  by_cases hc : canonicalMIMEHeaderKey k2 = canonicalMIMEHeaderKey k
  · simp [List.find?_cons, hc]
  · have hne : (canonicalMIMEHeaderKey k == canonicalMIMEHeaderKey k2) = false := by
      simp
      exact fun he => hc he.symm
    rw [if_neg hc]
    simp [List.find?_cons, hne, find?_filter_ne h _ _ hc]

lemma headerGet_foldl_of_ne (hs : List (String × String))
    (h0 : List (String × String)) (k : String)
    (hk : ∀ p ∈ hs, canonicalMIMEHeaderKey p.1 ≠ canonicalMIMEHeaderKey k) :
    headerGet (hs.foldl (fun h p => headerSet h p.1 p.2) h0) k = headerGet h0 k := by
  induction hs generalizing h0 with
  | nil => rfl
  | cons q t ih =>
    rw [List.foldl_cons, ih _ (fun p hp => hk p (List.mem_cons_of_mem q hp))]
    rw [headerGet_headerSet, if_neg]
    exact fun he => hk q (List.mem_cons_self q t) he.symm

lemma headerGet_foldl_mem (hs : List (String × String)) :
    ∀ h0 : List (String × String),
    (hs.map (fun p => canonicalMIMEHeaderKey p.1)).Nodup →
    ∀ p ∈ hs, headerGet (hs.foldl (fun h q => headerSet h q.1 q.2) h0) p.1 = some p.2 := by
  induction hs with
  | nil => intro h0 _ p hp; cases hp
  | cons q t ih =>
    intro h0 hnd p hp
    simp only [List.map_cons, List.nodup_cons] at hnd
    rw [List.foldl_cons]
    rcases List.mem_cons.mp hp with rfl | hpt
    · have hq : ∀ r ∈ t, canonicalMIMEHeaderKey r.1 ≠ canonicalMIMEHeaderKey p.1 := by
        intro r hr hcontra
        exact hnd.1 (List.mem_map.mpr ⟨r, hr, hcontra⟩)
      rw [headerGet_foldl_of_ne t _ _ hq, headerGet_headerSet, if_pos rfl]
    · exact ih _ hnd.2 p hpt

/-- C2 (amended): `call` sets `Content-Type: application/json` first and
then applies every configured header with `Header.Set`, so all configured
headers reach the request with their configured values, and the content
type equals `application/json` whenever no configured key canonicalizes to
`Content-Type` — but a configured `Content-Type` entry, being applied
after, does override it. -/
theorem call_request_headers (hs : List (String × String))
    (hnd : (hs.map (fun p => canonicalMIMEHeaderKey p.1)).Nodup) :
    ((∀ p ∈ hs, canonicalMIMEHeaderKey p.1 ≠ "Content-Type") →
      headerGet (buildRequestHeaders hs) "Content-Type" = some "application/json") ∧
    (∀ p ∈ hs, headerGet (buildRequestHeaders hs) p.1 = some p.2) := by
  constructor
  · intro hct
    unfold buildRequestHeaders
    rw [headerGet_foldl_of_ne hs _ _ (fun p hp => by
      rw [show canonicalMIMEHeaderKey "Content-Type" = "Content-Type" from rfl]
      exact hct p hp)]
    rfl
  · exact headerGet_foldl_mem hs _ hnd

/-- C2 witness: with one configured header `Authorization: tok`, the
request carries both `Content-Type: application/json` and the configured
header. -/
theorem call_request_headers_witness :
    headerGet (buildRequestHeaders [("Authorization", "tok")]) "Content-Type" =
      some "application/json" ∧
    headerGet (buildRequestHeaders [("Authorization", "tok")]) "Authorization" =
      some "tok" := by
  have h := call_request_headers [("Authorization", "tok")] (by decide)
  exact ⟨h.1 (by decide), h.2 ("Authorization", "tok") (by decide)⟩

/-- C2 counterexample: a configured `Content-Type: text/plain` entry is
applied after the fixed header and overrides it, so the outbound request
does not carry `application/json`. -/
theorem content_type_override_counterexample :
    headerGet (buildRequestHeaders [("Content-Type", "text/plain")]) "Content-Type" =
      some "text/plain" ∧
    some "text/plain" ≠ some "application/json" := ⟨by decide, by decide⟩

/-- The JSON-RPC response body used to exercise the error path of `call`:
an error object with the given code, message `m`, no data. -/
def codedErrorBody (code : Int) : Json :=
  .obj [("jsonrpc", .str "2.0"),
    ("error", .obj [("code", .num code), ("message", .str "m")]),
    ("id", .str "1")]

/-- A JSON-RPC response body carrying an error with code, message and
data. -/
def fullErrorBody : Json :=
  .obj [("jsonrpc", .str "2.0"),
    ("error", .obj [("code", .num 7), ("message", .str "bad args"),
      ("data", .str "detail")]),
    ("id", .str "1")]

/-- A well-formed JSON-RPC success body. -/
def okBody : Json :=
  .obj [("jsonrpc", .str "2.0"), ("result", .str "ok"), ("id", .str "1")]

/-- A JSON-RPC body carrying both a result and an error. -/
def bothBody : Json :=
  .obj [("jsonrpc", .str "2.0"), ("result", .str "ok"),
    ("error", .obj [("code", .num 5), ("message", .str "boom")]),
    ("id", .str "7")]

/-- C1 (amended): when a parsed JSON-RPC response carries an error
object, `call` fails with the TRP error value preserving the server
error's message and optional data payload; the integer code is not
carried by the Go `Error` struct and is dropped. -/
theorem call_error_surfaces_message_data (resp : HttpResponse) (j : Json)
    (rpc : jsonRPCResponse) (e : jsonRPCError)
    (hst : resp.StatusCode = 200) (hb : resp.BodyJson = some j)
    (hp : unmarshalJsonRPCResponse j = .ok rpc) (he : rpc.Error = some e) :
    processResponse resp = .error (.trpError e.Message e.Data) := by
  simp [processResponse, hst, hb, hp, he]

/-- C1 witness: a response whose error carries code 7, message and data
fails with the TRP error holding that message and data. -/
theorem call_error_surfaces_message_data_witness :
    processResponse ⟨200, "", some fullErrorBody⟩ =
      .error (.trpError "bad args" (some (.str "detail"))) :=
  call_error_surfaces_message_data ⟨200, "", some fullErrorBody⟩ fullErrorBody
    ⟨"2.0", none, some ⟨7, "bad args", some (.str "detail")⟩, "1"⟩
    ⟨7, "bad args", some (.str "detail")⟩ rfl rfl rfl rfl

/-- C1 counterexample: two responses identical except for the server
error's integer code (1 versus 2) parse to distinct error objects yet
produce the same caller-facing failure, so the integer code is not
preserved in the value surfaced to the caller. -/
theorem call_error_drops_code_counterexample :
    unmarshalJsonRPCResponse (codedErrorBody 1) =
      .ok ⟨"2.0", none, some ⟨1, "m", none⟩, "1"⟩ ∧
    unmarshalJsonRPCResponse (codedErrorBody 2) =
      .ok ⟨"2.0", none, some ⟨2, "m", none⟩, "1"⟩ ∧
    processResponse ⟨200, "", some (codedErrorBody 1)⟩ =
      .error (.trpError "m" none) ∧
    processResponse ⟨200, "", some (codedErrorBody 2)⟩ =
      .error (.trpError "m" none) :=
  ⟨rfl, rfl, rfl, rfl⟩

/-- C3 (amended): `call` proceeds past the HTTP layer exactly when the
status is 200 (`http.StatusOK`): every other status — other 2xx codes
included — fails with the HTTP error carrying that status and the raw
body, independent of whether the body parses, and a 200 response never
yields an HTTP error. -/
theorem http_status_gate (resp : HttpResponse) :
    (resp.StatusCode ≠ 200 →
      processResponse resp = .error (.httpError resp.StatusCode resp.Body)) ∧
    (resp.StatusCode = 200 →
      ∀ s b, processResponse resp ≠ .error (.httpError s b)) := by
  constructor
  · intro h
    simp [processResponse, h]
  · intro h s b
    have h200 : ¬(resp.StatusCode ≠ 200) := by simp [h]
    simp only [processResponse, if_neg h200]
    cases hbj : resp.BodyJson with
    | none => simp
    | some j =>
      cases hp : unmarshalJsonRPCResponse j with
      | error e => simp [hp]
      | ok rpc =>
        cases he : rpc.Error with
        | some e => simp [hp, he]
        | none => simp [hp, he]

/-- C3 witness: a 500 response with body `internal error` fails with the
HTTP error carrying 500 and the body, and a 200 response with a valid
success body is not an HTTP error. -/
theorem http_status_gate_witness :
    processResponse ⟨500, "internal error", none⟩ =
      .error (.httpError 500 "internal error") ∧
    processResponse ⟨200, "", some okBody⟩ ≠ .error (.httpError 200 "") :=
  ⟨(http_status_gate ⟨500, "internal error", none⟩).1 (by decide),
   (http_status_gate ⟨200, "", some okBody⟩).2 rfl 200 ""⟩

/-- C3 counterexample: a 201 response whose body is a perfectly valid
JSON-RPC success still fails with the HTTP error, so the exchange is not
treated as successful for every 2xx status. -/
theorem http_status_201_counterexample :
    processResponse ⟨201, "rb", some okBody⟩ = .error (.httpError 201 "rb") := rfl

/-- C8: when the parsed response carries an error member, `call` fails
with the protocol error's message and data even when a result member is
also present, and never returns a result. -/
theorem error_takes_precedence (resp : HttpResponse) (j : Json)
    (rpc : jsonRPCResponse) (e : jsonRPCError) (r : Json)
    (hst : resp.StatusCode = 200) (hb : resp.BodyJson = some j)
    (hp : unmarshalJsonRPCResponse j = .ok rpc) (he : rpc.Error = some e)
    (_hr : rpc.Result = some r) :
    processResponse resp = .error (.trpError e.Message e.Data) ∧
    ∀ v, processResponse resp ≠ .ok v := by
  have heq : processResponse resp = .error (.trpError e.Message e.Data) := by
    simp [processResponse, hst, hb, hp, he]
  exact ⟨heq, fun v hv => by rw [heq] at hv; cases hv⟩

/-- C8 witness: a response carrying both `result` and `error` fails with
the protocol error and does not return the result. -/
theorem error_takes_precedence_witness :
    processResponse ⟨200, "", some bothBody⟩ = .error (.trpError "boom" none) ∧
    ∀ v, processResponse ⟨200, "", some bothBody⟩ ≠ .ok v :=
  error_takes_precedence ⟨200, "", some bothBody⟩ bothBody
    ⟨"2.0", some (.str "ok"), some ⟨5, "boom", none⟩, "7"⟩
    ⟨5, "boom", none⟩ (.str "ok") rfl rfl rfl rfl rfl

/-- C6: the serialized outbound params of `Resolve` omit the `env` key
entirely when the configured environment-argument mapping is empty, and
bind `env` to exactly that mapping as an object when it is non-empty. -/
theorem resolve_env_key (opts : ClientOptions) (ptx : ProtoTxRequest) :
    (opts.EnvArgs = [] →
      "env" ∉ objKeys (resolveOutboundParams opts ptx) ∧
      jsonObjLookup (resolveOutboundParams opts ptx) "env" = none) ∧
    (opts.EnvArgs ≠ [] →
      jsonObjLookup (resolveOutboundParams opts ptx) "env" =
        some (.obj opts.EnvArgs)) := by
  constructor
  · intro h
    simp [resolveOutboundParams, resolveParams, marshalJsonRPCParams, h,
      objKeys, jsonObjLookup]
  · intro h
    have hl : 0 < opts.EnvArgs.length := List.length_pos.mpr h
    simp [resolveOutboundParams, resolveParams, marshalJsonRPCParams, hl,
      jsonObjLookup]

/-- Client options with no configured env args. -/
def optsNoEnv : ClientOptions := ⟨"e", [], [], 0⟩

/-- Client options with one configured env arg. -/
def optsOneEnv : ClientOptions := ⟨"e", [], [("net", .str "main")], 0⟩

/-- Client options with a non-zero timeout of 5 nanoseconds. -/
def optsTimeout5 : ClientOptions := ⟨"e", [], [], 5⟩

/-- A sample proto-transaction request. -/
def ptx0 : ProtoTxRequest := ⟨⟨"1", "dead", "hex"⟩, .obj []⟩

/-- C6 witness: with no env args the serialized params have no `env` key;
with one env arg the `env` key holds exactly that mapping. -/
theorem resolve_env_key_witness :
    ("env" ∉ objKeys (resolveOutboundParams optsNoEnv ptx0) ∧
      jsonObjLookup (resolveOutboundParams optsNoEnv ptx0) "env" = none) ∧
    jsonObjLookup (resolveOutboundParams optsOneEnv ptx0) "env" =
      some (.obj [("net", .str "main")]) :=
  ⟨(resolve_env_key optsNoEnv ptx0).1 rfl,
   (resolve_env_key optsOneEnv ptx0).2 (List.cons_ne_nil _ _)⟩

/-- C7: for every `Submit` call the outbound RPC params serialize as an
object whose `tx` member is `{content: tx.Tx, encoding: "hex"}` and whose
`witnesses` member is the given witness sequence marshaled element-wise
in the caller-given order. -/
theorem submit_params_shape (tx : TxEnvelope) (ws : List WitnessInput) :
    submitOutboundParams tx ws =
      .obj [("tx", .obj [("content", .str tx.Tx), ("encoding", .str "hex")]),
            ("witnesses", .arr (ws.map marshalWitnessInput))] := rfl

/-- C9: `NewClient` gives the HTTP transport a 30-second timeout when the
configured timeout is zero, and the configured timeout otherwise. -/
theorem newClient_timeout (opts : ClientOptions) :
    (opts.Timeout = 0 → (NewClient opts).httpTimeout = 30 * timeSecond) ∧
    (opts.Timeout ≠ 0 → (NewClient opts).httpTimeout = opts.Timeout) := by
  constructor <;> intro h <;> simp [NewClient, h]

/-- C9 witness: a zero configured timeout becomes 30 seconds; a non-zero
one (5ns) is kept. -/
theorem newClient_timeout_witness :
    (NewClient optsNoEnv).httpTimeout = 30 * timeSecond ∧
    (NewClient optsTimeout5).httpTimeout = 5 :=
  ⟨(newClient_timeout optsNoEnv).1 rfl,
   (newClient_timeout optsTimeout5).2 (by decide)⟩

end Tx3
